import Mathlib

/-!
Shallow embedding of the stroke triage model:
* `src/stroke/severity.py` — severity scores (RACE / NIHSS), outcome
  probability formulas and the mRS state breakdown;
* `src/stroke/stroke_model.py` — hospital filtering, travel-time lookup,
  the convergence check and the adaptive simulation loop `run_new`.

Conventions of the embedding:
* python floats are embedded as exact rationals (`ℚ`);
* numpy's NaN is embedded as `Option.none` where the code can produce or
  consume it (timing inputs, travel times);
* `np.exp` is abstracted by a function parameter `E : ℚ → K`, instantiated
  with `fun q => Real.exp q` in the theorems;
* the uniform random draws of `np.random.uniform(lower, upper, n)` are
  abstracted by a stream `u : ℕ → K` of variates in `[0, 1)`, with
  draw i = lower + u i * (upper - lower);
* the per-iteration simulation pipeline of `run_new` (times, outcomes,
  cohort, results — external collaborator modules) is abstracted by an
  oracle `sim : ℕ → ℕ → List (String × ℚ)` mapping (iteration, n_sim) to
  the per-hospital counts `counts_by_center` of that iteration.
-/

namespace Stroke

/-- `RACE._get_NIHSS` (severity.py lines 160-169): NIHSS equivalent of a
RACE score. -/
def get_NIHSS (score : ℚ) : ℚ :=
  if score = 0 then 1 else -0.39 + 2.39 * score

/-- `NIHSS._get_RACE_score` (severity.py lines 178-184): RACE score derived
from an NIHSS score; a derived value above 9 is reset to 0. -/
def get_RACE_score (score : ℚ) : ℚ :=
  let race := if score ≤ 1 then 0 else (score + 0.39) / 2.39
  if race > 9 then 0 else race

/-- The RACE score setter (severity.py lines 131-136) raises
`ValueError` unless `0 ≤ score ≤ 9`. -/
def RACE_accepts (score : ℚ) : Prop :=
  ¬(score < 0 ∨ score > 9)

instance (score : ℚ) : Decidable (RACE_accepts score) := by
  unfold RACE_accepts; infer_instance

/-- The NIHSS constructor (severity.py lines 172-176) raises
`ValueError` unless `0 ≤ score ≤ 42`. -/
def NIHSS_accepts (score : ℚ) : Prop :=
  ¬(score < 0 ∨ score > 42)

instance (score : ℚ) : Decidable (NIHSS_accepts score) := by
  unfold NIHSS_accepts; infer_instance

/-- A validly constructed severity object: either `RACE(score)` or
`NIHSS(score)` built without a `ValueError`. -/
inductive Sev where
  | mkRACE (score : ℚ)
  | mkNIHSS (score : ℚ)
  deriving DecidableEq, Repr

/-- Construction succeeds: the constructor's range check passes. -/
def Sev.Valid : Sev → Prop
  | .mkRACE s => RACE_accepts s
  | .mkNIHSS s => NIHSS_accepts s

instance (v : Sev) : Decidable v.Valid := by
  cases v <;> unfold Sev.Valid <;> infer_instance

/-- The internal RACE score `self._score`: stored directly for `RACE`,
derived by `_get_RACE_score` for `NIHSS` (severity.py lines 175-176). -/
def Sev.race_score : Sev → ℚ
  | .mkRACE s => s
  | .mkNIHSS s => get_RACE_score s

/-- The `NIHSS` property of a severity object: `_get_NIHSS` of the stored
RACE score (severity.py lines 123-125 and 136). -/
def Sev.nihss (v : Sev) : ℚ :=
  get_NIHSS v.race_score

/-- Band characterization of the derived RACE score of an NIHSS-built
severity: 0 below 1, the affine image on (1, 21.12], reset to 0 above. -/
theorem race_score_low (s : ℚ) (hs : s ≤ 1) : (Sev.mkNIHSS s).race_score = 0 := by
  simp [Sev.race_score, get_RACE_score, hs]

theorem race_score_mid (s : ℚ) (hs1 : 1 < s) (hs2 : s ≤ 21.12) :
    (Sev.mkNIHSS s).race_score = (s + 0.39) / 2.39 := by
  have hnot : ¬ s ≤ 1 := not_le.mpr hs1
  have hle : ¬ ((s + 0.39) / 2.39 > 9) := by
    rw [not_lt, div_le_iff₀ (by norm_num : (0:ℚ) < 2.39)]
    linarith
  simp [Sev.race_score, get_RACE_score, hnot, hle]

theorem race_score_high (s : ℚ) (hs : 21.12 < s) : (Sev.mkNIHSS s).race_score = 0 := by
  have hs1 : ¬ s ≤ 1 := by push_neg; linarith
  have hgt : (s + 0.39) / 2.39 > 9 := by
    rw [gt_iff_lt, lt_div_iff₀ (by norm_num : (0:ℚ) < 2.39)]
    linarith
  simp [Sev.race_score, get_RACE_score, hs1, hgt]

/-- claim C6 -- Constructing a severity from an NIHSS score `s ∈ [0,42]`
derives RACE = 0 for `s ≤ 1` and `(s + 0.39)/2.39` otherwise; whenever the
derived value exceeds 9 — exactly when `s > 21.12` — it is reset to 0
rather than clamped to 9; `s = 0`, `s = 1` and `s = 42` all give RACE 0. -/
theorem claim_C6 :
    (∀ s : ℚ, NIHSS_accepts s  →
      (s ≤ 1 → (Sev.mkNIHSS s).race_score = 0) ∧
      (1 < s → s ≤ 21.12 → (Sev.mkNIHSS s).race_score = (s + 0.39) / 2.39) ∧
      (21.12 < s → (Sev.mkNIHSS s).race_score = 0) ∧
      (1 < s → ((s + 0.39) / 2.39 > 9 ↔ 21.12 < s))) ∧
    (Sev.mkNIHSS 0).race_score = 0 ∧
    (Sev.mkNIHSS 1).race_score = 0 ∧
    (Sev.mkNIHSS 42).race_score = 0 := by
  refine ⟨fun s _hacc => ⟨race_score_low s, race_score_mid s, race_score_high s, ?_⟩,
    race_score_low 0 (by norm_num), race_score_low 1 (by norm_num),
    race_score_high 42 (by norm_num)⟩
  intro _hs1
  rw [gt_iff_lt, lt_div_iff₀ (by norm_num : (0:ℚ) < 2.39)]
  constructor <;> intro h <;> linarith

/-- Witness for C6 at s = 10: the middle band maps to `(10+0.39)/2.39`. -/
theorem claim_C6_witness :
    NIHSS_accepts 10  ∧
    (Sev.mkNIHSS 10).race_score = (10 + 0.39) / 2.39 :=
  ⟨by norm_num [NIHSS_accepts],
   (claim_C6.1 10 (by norm_num [NIHSS_accepts])).2.1 (by norm_num) (by norm_num)⟩

/-- claim C5 (amended) -- For every RACE score accepted by the constructor,
the derived NIHSS is 1 at r = 0 and `-0.39 + 2.39 r` otherwise, so
NIHSS(0) = 1; the map is non-decreasing on the positive part (0, 9] of the
accepted domain and satisfies NIHSS(0) ≤ NIHSS(r) for r ≥ 139/239, but it
is not non-decreasing on the whole accepted domain [0, 9] (see the
counterexample at r = 1/2). -/
theorem claim_C5_amended :
    (Sev.mkRACE 0).nihss = 1 ∧
    (∀ r : ℚ, RACE_accepts r  → r ≠ 0 →
      (Sev.mkRACE r).nihss = -0.39 + 2.39 * r) ∧
    (∀ r₁ r₂ : ℚ, RACE_accepts r₁  → RACE_accepts r₂  →
      0 < r₁ → r₁ ≤ r₂ → (Sev.mkRACE r₁).nihss ≤ (Sev.mkRACE r₂).nihss) ∧
    (∀ r : ℚ, RACE_accepts r  → 139/239 ≤ r →
      (Sev.mkRACE 0).nihss ≤ (Sev.mkRACE r).nihss) := by
  have h0 : (Sev.mkRACE 0).nihss = 1 := by
    simp [Sev.nihss, Sev.race_score, get_NIHSS]
  refine ⟨h0, fun r _ hr => ?_, fun r₁ r₂ _ _ h1 h12 => ?_, fun r _ hr => ?_⟩
  · simp [Sev.nihss, Sev.race_score, get_NIHSS, hr]
  · have hne1 : r₁ ≠ 0 := ne_of_gt h1
    have hne2 : r₂ ≠ 0 := ne_of_gt (lt_of_lt_of_le h1 h12)
    simp only [Sev.nihss, Sev.race_score, get_NIHSS, if_neg hne1, if_neg hne2]
    linarith
  · have hne : r ≠ 0 := by
      intro h; rw [h] at hr; norm_num at hr
    rw [h0]
    simp only [Sev.nihss, Sev.race_score, get_NIHSS, if_neg hne]
    linarith

/-- Witness for C5 (amended): RACE 1 ≤ RACE 2 gives NIHSS 2 ≤ NIHSS 4.39. -/
theorem claim_C5_amended_witness :
    RACE_accepts 1  ∧ RACE_accepts 2  ∧
    (Sev.mkRACE 1).nihss ≤ (Sev.mkRACE 2).nihss :=
  ⟨by norm_num [RACE_accepts], by norm_num [RACE_accepts],
    claim_C5_amended.2.2.1 1 2 (by norm_num [RACE_accepts])
      (by norm_num [RACE_accepts]) (by norm_num) (by norm_num)⟩

/-- Counterexample for C5 as stated: the scores 0 and 1/2 are both accepted
by the RACE constructor, 0 ≤ 1/2, yet NIHSS(1/2) = 0.805 < 1 = NIHSS(0):
the map r ↦ NIHSS(r) is not non-decreasing on the whole accepted domain. -/
theorem claim_C5_counterexample :
    RACE_accepts 0  ∧ RACE_accepts (1/2)  ∧
    (0:ℚ) ≤ 1/2 ∧ (Sev.mkRACE (1/2)).nihss < (Sev.mkRACE 0).nihss := by
  refine ⟨by norm_num [RACE_accepts], by norm_num [RACE_accepts], by norm_num, ?_⟩
  have h2 : (Sev.mkRACE (1/2)).nihss = 0.805 := by
    rw [Sev.nihss]
    show get_NIHSS (1/2) = 0.805
    rw [get_NIHSS, if_neg (by norm_num : (1/2 : ℚ) ≠ 0)]
    norm_num
  have h0 : (Sev.mkRACE 0).nihss = 1 := by
    simp [Sev.nihss, Sev.race_score, get_NIHSS]
  rw [h2, h0]; norm_num

/-- claim C10 -- The NIHSS → RACE → NIHSS round trip is exact on the middle
band: for `1 < s ≤ 21.12` the severity built from NIHSS `s` reports derived
NIHSS exactly `s`; for `s ≤ 1` or `s > 21.12` (within the accepted range
[0, 42]) it reports 1. -/
theorem claim_C10 :
    (∀ s : ℚ, 1 < s → s ≤ 21.12 → (Sev.mkNIHSS s).nihss = s) ∧
    (∀ s : ℚ, NIHSS_accepts s  → (s ≤ 1 ∨ 21.12 < s) →
      (Sev.mkNIHSS s).nihss = 1) := by
  constructor
  · intro s hs1 hs2
    have hrace : (Sev.mkNIHSS s).race_score = (s + 0.39) / 2.39 :=
      race_score_mid s hs1 hs2
    have hne : (s + 0.39) / 2.39 ≠ 0 := by
      apply div_ne_zero _ (by norm_num)
      intro h
      have hs : s = -0.39 := by linarith [eq_neg_of_add_eq_zero_left h]
      rw [hs] at hs1; norm_num at hs1
    rw [Sev.nihss, hrace, get_NIHSS, if_neg hne]
    field_simp
  · intro s _hacc hs
    rcases hs with hs | hs
    · rw [Sev.nihss, race_score_low s hs]; simp [get_NIHSS]
    · rw [Sev.nihss, race_score_high s hs]; simp [get_NIHSS]

/-- Witness for C10: NIHSS 10 round-trips to exactly 10, NIHSS 42 to 1. -/
theorem claim_C10_witness :
    (Sev.mkNIHSS 10).nihss = 10 ∧
    (NIHSS_accepts 42  ∧ (Sev.mkNIHSS 42).nihss = 1) :=
  ⟨claim_C10.1 10 (by norm_num) (by norm_num),
   by norm_num [NIHSS_accepts],
   claim_C10.2 42 (by norm_num [NIHSS_accepts]) (Or.inr (by norm_num))⟩

/-- `Severity.p_good_outcome_no_reperfusion` (severity.py lines 38-47). -/
def p_good_outcome_no_reperfusion (nihss : ℚ) : ℚ :=
  if nihss ≥ 20 then 0.05 else -0.0464 * nihss + 1.0071

/-- Modelled from the spec: `constants.time_limit_tpa()` — the `constants`
module is not among the sources; the spec calls it "a time-limit threshold
(an external constant)" and the docstring of `p_good_outcome_ais_no_lvo`
notes that tPA is not given when time from onset exceeds 270 minutes, so
the threshold is taken to be 270. -/
def time_limit_tpa : ℚ := 270

/-- Baseline probability in `Severity.p_good_outcome_ais_no_lvo`
(severity.py line 60). -/
def ais_no_lvo_baseline (nihss : ℚ) : ℚ :=
  0.001 * nihss ^ 2 - 0.0615 * nihss + 1

/-- Odds-adjusted probability in `Severity.p_good_outcome_ais_no_lvo`
(severity.py lines 62-67): the baseline converted to odds, multiplied by
the time-dependent odds ratio, converted back to a probability. -/
def ais_no_lvo_adjusted (nihss t : ℚ) : ℚ :=
  let baseline_prob := ais_no_lvo_baseline nihss
  let odds_mult := -0.0031 * t + 2.068
  let baseline_prob_to_odds := baseline_prob / (1 - baseline_prob)
  let new_odds := baseline_prob_to_odds * odds_mult
  new_odds / (1 + new_odds)

/-- `Severity.p_good_outcome_ais_no_lvo` (severity.py lines 49-72): the
selection `np.where(isnan t, nan, np.where(t < limit, adjusted, baseline))`;
`none` embeds NaN. -/
def p_good_outcome_ais_no_lvo (nihss : ℚ) (time_onset_tpa : Option ℚ) :
    Option ℚ :=
  match time_onset_tpa with
  | none => none
  | some t => some (if t < time_limit_tpa then ais_no_lvo_adjusted nihss t
                    else ais_no_lvo_baseline nihss)

/-- `Severity.p_good_outcome_post_evt_success` (severity.py lines 30-36);
`E` abstracts `np.exp`. -/
def p_good_outcome_post_evt_success {K : Type} (E : ℚ → K)
    (nihss time_onset_reperfusion : ℚ) : K :=
  E ((-0.00879544 - 9.01419716e-5 * time_onset_reperfusion) * nihss)

/-- The mRS-6 (death) band constant of `break_up_ais_patients`
(severity.py lines 101-104): a step function of NIHSS. -/
def deathProb (nihss : ℚ) : ℚ :=
  if nihss < 7 then 0.042
  else if nihss < 13 then 0.139
  else if nihss < 21 then 0.316
  else 0.535

/-- One (sample, hospital) slice of the outcome-state tensor: the seven
probabilities for mRS 0 through 6. -/
structure StateVec where
  mrs0 : ℚ
  mrs1 : ℚ
  mrs2 : ℚ
  mrs3 : ℚ
  mrs4 : ℚ
  mrs5 : ℚ
  mrs6 : ℚ
  deriving DecidableEq, Repr

/-- Sum of the seven state probabilities of a cell. -/
def StateVec.total (s : StateVec) : ℚ :=
  s.mrs0 + s.mrs1 + s.mrs2 + s.mrs3 + s.mrs4 + s.mrs5 + s.mrs6

/-- The per-cell content of `Severity.break_up_ais_patients` (severity.py
lines 81-117); every numpy operation there is elementwise in the
(sample, hospital) cell. -/
def breakUpCell (nihss p_good : ℚ) : StateVec :=
  let d := deathProb nihss
  let p_bad := 1 - p_good - d
  { mrs0 := 0.205627706 * p_good
    mrs1 := 0.341991342 * p_good
    mrs2 := 0.452380952 * p_good
    mrs3 := 0.35678392 * p_bad
    mrs4 := 0.432160804 * p_bad
    mrs5 := 0.211055276 * p_bad
    mrs6 := d }

/-- `Severity.break_up_ais_patients` on an (n_samples × n_hospitals) array
of good-outcome probabilities. -/
def break_up_ais_patients (nihss : ℚ) (p_good : List (List ℚ)) :
    List (List StateVec) :=
  p_good.map (fun row => row.map (breakUpCell nihss))

/-- claim C1 -- For every validly constructed severity and every
(n_samples × n_hospitals) array of good-outcome probabilities, each
(sample, hospital) cell of the tensor returned by `break_up_ais_patients`
has its seven state probabilities summing to 1 within 1e-9: mRS 0-2 are the
fixed shares 0.205627706 / 0.341991342 / 0.452380952 of the good-outcome
probability, mRS 6 is the NIHSS-band death constant, and mRS 3-5 are the
fixed shares 0.35678392 / 0.432160804 / 0.211055276 of the remaining
mass. -/
theorem claim_C1 (v : Sev) (hv : v.Valid) (grid : List (List ℚ))
    (i j : ℕ) (row : List ℚ) (p : ℚ) (orow : List StateVec) (cell : StateVec)
    (hrow : grid[i]? = some row) (hp : row[j]? = some p)
    (horow : (break_up_ais_patients v.nihss grid)[i]? = some orow)
    (hcell : orow[j]? = some cell) :
    |cell.total - 1| ≤ 1 / 1000000000 ∧
    cell.mrs0 = 0.205627706 * p ∧
    cell.mrs1 = 0.341991342 * p ∧
    cell.mrs2 = 0.452380952 * p ∧
    cell.mrs6 = (if v.nihss < 7 then 0.042 else if v.nihss < 13 then 0.139
                 else if v.nihss < 21 then 0.316 else 0.535) ∧
    cell.mrs3 = 0.35678392 * (1 - p - cell.mrs6) ∧
    cell.mrs4 = 0.432160804 * (1 - p - cell.mrs6) ∧
    cell.mrs5 = 0.211055276 * (1 - p - cell.mrs6) := by
  have horow' : orow = row.map (breakUpCell v.nihss) := by
    rw [break_up_ais_patients, List.getElem?_map, hrow] at horow
    exact (Option.some_injective _ horow.symm)
  have hcell' : cell = breakUpCell v.nihss p := by
    rw [horow', List.getElem?_map, hp] at hcell
    exact (Option.some_injective _ hcell.symm)
  subst hcell'
  refine ⟨?_, rfl, rfl, rfl, rfl, ?_, ?_, ?_⟩
  · have htot : (breakUpCell v.nihss p).total = 1 := by
      simp only [breakUpCell, StateVec.total]
      ring
    rw [htot]
    norm_num
  · rfl
  · rfl
  · rfl

/-- Witness for C1 at RACE 5, grid [[1/2]]: the cell sums to 1 ± 1e-9. -/
theorem claim_C1_witness :
    |(breakUpCell (Sev.mkRACE 5).nihss (1/2)).total - 1| ≤ 1 / 1000000000 :=
  (claim_C1 (Sev.mkRACE 5) (by norm_num [Sev.Valid, RACE_accepts])
    [[1/2]] 0 0 [1/2] (1/2)
    [breakUpCell (Sev.mkRACE 5).nihss (1/2)]
    (breakUpCell (Sev.mkRACE 5).nihss (1/2)) rfl rfl rfl rfl).1

/-- claim C8 -- For every validly constructed severity,
`p_good_outcome_ais_no_lvo` propagates a NaN time input as a NaN
probability instead of raising; below the tPA time limit it returns the
odds-adjusted probability (baseline `0.001·NIHSS² − 0.0615·NIHSS + 1`
converted to odds, multiplied by the odds ratio `−0.0031·t + 2.068`,
converted back); at or above the limit it returns the baseline
unchanged. -/
theorem claim_C8 (v : Sev) (hv : v.Valid) :
    p_good_outcome_ais_no_lvo v.nihss none = none ∧
    (∀ t : ℚ, t < time_limit_tpa →
      p_good_outcome_ais_no_lvo v.nihss (some t) =
        some ((((0.001 * v.nihss ^ 2 - 0.0615 * v.nihss + 1) /
                 (1 - (0.001 * v.nihss ^ 2 - 0.0615 * v.nihss + 1))) *
                (-0.0031 * t + 2.068)) /
              (1 + ((0.001 * v.nihss ^ 2 - 0.0615 * v.nihss + 1) /
                 (1 - (0.001 * v.nihss ^ 2 - 0.0615 * v.nihss + 1))) *
                (-0.0031 * t + 2.068)))) ∧
    (∀ t : ℚ, time_limit_tpa ≤ t →
      p_good_outcome_ais_no_lvo v.nihss (some t) =
        some (0.001 * v.nihss ^ 2 - 0.0615 * v.nihss + 1)) := by
  refine ⟨rfl, fun t ht => ?_, fun t ht => ?_⟩
  · rw [p_good_outcome_ais_no_lvo]
    simp only [if_pos ht]
    rw [ais_no_lvo_adjusted, ais_no_lvo_baseline]
  · rw [p_good_outcome_ais_no_lvo]
    simp only [if_neg (not_lt.mpr ht)]
    rw [ais_no_lvo_baseline]

/-- Witness for C8 at RACE 5: NaN propagates, and t = 300 (past the limit)
returns the baseline. -/
theorem claim_C8_witness :
    p_good_outcome_ais_no_lvo (Sev.mkRACE 5).nihss none = none ∧
    p_good_outcome_ais_no_lvo (Sev.mkRACE 5).nihss (some 300) =
      some (0.001 * (Sev.mkRACE 5).nihss ^ 2 - 0.0615 * (Sev.mkRACE 5).nihss + 1) :=
  ⟨(claim_C8 (Sev.mkRACE 5) (by norm_num [Sev.Valid, RACE_accepts])).1,
   (claim_C8 (Sev.mkRACE 5) (by norm_num [Sev.Valid, RACE_accepts])).2.2 300
     (by norm_num [time_limit_tpa])⟩

/-- The argument handed to `np.exp` inside `p_lvo_logistic_helper`
(severity.py line 149): the helper computes `1 / (1 + exp(-b0 - b1·score))`. -/
def p_lvo_logistic_arg (b0 b1 score : ℚ) : ℚ :=
  -b0 - b1 * score

/-- The inner `p_lvo_logistic_helper` of `RACE.prob_LVO_given_AIS`
(severity.py lines 148-149); `E` abstracts `np.exp`. -/
def p_lvo_logistic_helper {K : Type} [Field K] (E : ℚ → K) (b0 b1 score : ℚ) : K :=
  1 / (1 + E (p_lvo_logistic_arg b0 b1 score))

/-- `RACE.prob_LVO_given_AIS` (severity.py lines 141-158).  Without
uncertainty: the point logistic value repeated n times
(`np.repeat(..., n)`).  With uncertainty: n draws of
`np.random.uniform(lower, upper)`, each embedded as
`lower + u i * (upper - lower)` for a uniform variate `u i ∈ [0, 1)`. -/
def prob_LVO_given_AIS {K : Type} [Field K] (E : ℚ → K) (score : ℚ)
    (n : ℕ) (add_uncertainty : Bool) (u : ℕ → K) : List K :=
  if add_uncertainty then
    (List.range n).map (fun i =>
      p_lvo_logistic_helper E (-3.6526) 0.4141 score +
        u i * (p_lvo_logistic_helper E (-2.2067) 0.6925 score -
               p_lvo_logistic_helper E (-3.6526) 0.4141 score))
  else
    List.replicate n (p_lvo_logistic_helper E (-2.9297) 0.5533 score)

/-- With `np.exp`, every logistic curve value is positive. -/
theorem lvo_helper_pos (b0 b1 s : ℚ) :
    0 < p_lvo_logistic_helper (fun q => Real.exp q) b0 b1 s := by
  rw [p_lvo_logistic_helper]
  positivity

/-- With `np.exp`, every logistic curve value is at most 1. -/
theorem lvo_helper_le_one (b0 b1 s : ℚ) :
    p_lvo_logistic_helper (fun q => Real.exp q) b0 b1 s ≤ 1 := by
  rw [p_lvo_logistic_helper]
  rw [div_le_one (by positivity)]
  have h := Real.exp_pos ((p_lvo_logistic_arg b0 b1 s : ℚ) : ℝ)
  linarith

/-- The logistic helper is antitone in the exp argument: a smaller
argument gives a larger curve value. -/
theorem lvo_helper_mono (b0 b1 c0 c1 s : ℚ)
    (h : p_lvo_logistic_arg c0 c1 s ≤ p_lvo_logistic_arg b0 b1 s) :
    p_lvo_logistic_helper (fun q => Real.exp q) b0 b1 s ≤
      p_lvo_logistic_helper (fun q => Real.exp q) c0 c1 s := by
  rw [p_lvo_logistic_helper, p_lvo_logistic_helper]
  have h1 : (0:ℝ) < 1 + Real.exp ((p_lvo_logistic_arg c0 c1 s : ℚ) : ℝ) := by
    positivity
  apply one_div_le_one_div_of_le h1
  have h2 : Real.exp ((p_lvo_logistic_arg c0 c1 s : ℚ) : ℝ) ≤
      Real.exp ((p_lvo_logistic_arg b0 b1 s : ℚ) : ℝ) :=
    Real.exp_le_exp.mpr (by exact_mod_cast h)
  linarith

/-- For a non-negative score, the lower-bound curve lies below the
upper-bound curve. -/
theorem lvo_lower_le_upper (s : ℚ) (hs : 0 ≤ s) :
    p_lvo_logistic_helper (fun q => Real.exp q) (-3.6526) 0.4141 s ≤
      p_lvo_logistic_helper (fun q => Real.exp q) (-2.2067) 0.6925 s := by
  apply lvo_helper_mono
  rw [p_lvo_logistic_arg, p_lvo_logistic_arg]
  linarith

/-- claim C7 -- `prob_LVO_given_AIS` without uncertainty returns the point
logistic value `1/(1 + exp(2.9297 − 0.5533·score))` repeated for all n
samples; with uncertainty every draw lies within
`[lower_curve(score), upper_curve(score)]`, the lower curve using logistic
coefficients (−3.6526, 0.4141) and the upper (−2.2067, 0.6925); and for
every RACE score in [0, 9] the point-estimate curve lies between the lower
and the upper curve. -/
theorem claim_C7 :
    (∀ (s : ℚ) (n : ℕ) (u : ℕ → ℝ),
      prob_LVO_given_AIS (fun q => Real.exp q) s n false u =
        List.replicate n (1 / (1 + Real.exp ((2.9297 - 0.5533 * s : ℚ) : ℝ)))) ∧
    (∀ (s : ℚ) (n : ℕ) (u : ℕ → ℝ), 0 ≤ s → (∀ i, 0 ≤ u i ∧ u i < 1) →
      ∀ x ∈ prob_LVO_given_AIS (fun q => Real.exp q) s n true u,
        p_lvo_logistic_helper (fun q => Real.exp q) (-3.6526) 0.4141 s ≤ x ∧
        x ≤ p_lvo_logistic_helper (fun q => Real.exp q) (-2.2067) 0.6925 s) ∧
    (∀ s : ℚ, 0 ≤ s → s ≤ 9 →
      p_lvo_logistic_helper (fun q => Real.exp q) (-3.6526) 0.4141 s ≤
        p_lvo_logistic_helper (fun q => Real.exp q) (-2.9297) 0.5533 s ∧
      p_lvo_logistic_helper (fun q => Real.exp q) (-2.9297) 0.5533 s ≤
        p_lvo_logistic_helper (fun q => Real.exp q) (-2.2067) 0.6925 s) := by
  refine ⟨fun s n u => ?_, fun s n u hs hu x hx => ?_, fun s hs _hs9 => ⟨?_, ?_⟩⟩
  · have harg : p_lvo_logistic_arg (-2.9297) 0.5533 s = 2.9297 - 0.5533 * s := by
      rw [p_lvo_logistic_arg]; ring
    rw [prob_LVO_given_AIS, if_neg (by simp), p_lvo_logistic_helper, harg]
  · rw [prob_LVO_given_AIS, if_pos rfl] at hx
    obtain ⟨i, _hi, hix⟩ := List.mem_map.mp hx
    obtain ⟨hu0, hu1⟩ := hu i
    have hle := lvo_lower_le_upper s hs
    constructor
    · rw [← hix]; nlinarith
    · rw [← hix]; nlinarith
  · apply lvo_helper_mono
    rw [p_lvo_logistic_arg, p_lvo_logistic_arg]
    linarith
  · apply lvo_helper_mono
    rw [p_lvo_logistic_arg, p_lvo_logistic_arg]
    linarith

/-- Witness for C7 at score 5: the no-uncertainty return value and the
lower ≤ point ≤ upper ordering. -/
theorem claim_C7_witness :
    prob_LVO_given_AIS (fun q => Real.exp q) 5 2 false (fun _ => 0) =
      List.replicate 2 (1 / (1 + Real.exp ((2.9297 - 0.5533 * 5 : ℚ) : ℝ))) ∧
    (p_lvo_logistic_helper (fun q => Real.exp q) (-3.6526) 0.4141 5 ≤
       p_lvo_logistic_helper (fun q => Real.exp q) (-2.9297) 0.5533 5 ∧
     p_lvo_logistic_helper (fun q => Real.exp q) (-2.9297) 0.5533 5 ≤
       p_lvo_logistic_helper (fun q => Real.exp q) (-2.2067) 0.6925 5) :=
  ⟨claim_C7.1 5 2 (fun _ => 0), claim_C7.2.2 5 (by norm_num) (by norm_num)⟩

/-- The stored RACE score of a validly constructed severity lies in
[0, 9] (the setter's range check, or `_get_RACE_score`'s codomain). -/
theorem race_score_range (v : Sev) (hv : v.Valid) :
    0 ≤ v.race_score ∧ v.race_score ≤ 9 := by
  cases v with
  | mkRACE s =>
      rw [Sev.Valid, RACE_accepts] at hv
      push_neg at hv
      exact ⟨hv.1, hv.2⟩
  | mkNIHSS s =>
      rw [Sev.race_score, get_RACE_score]
      by_cases h9 : (if s ≤ 1 then (0:ℚ) else (s + 0.39) / 2.39) > 9
      · rw [if_pos h9]
        norm_num
      · rw [if_neg h9]
        refine ⟨?_, not_lt.mp h9⟩
        by_cases h1 : s ≤ 1
        · rw [if_pos h1]
        · rw [if_neg h1]
          push_neg at h1
          positivity

/-- The derived NIHSS of a validly constructed severity is at most
21.12 = −0.39 + 2.39·9. -/
theorem nihss_le_of_valid (v : Sev) (hv : v.Valid) : v.nihss ≤ 21.12 := by
  obtain ⟨h0, h9⟩ := race_score_range v hv
  rw [Sev.nihss, get_NIHSS]
  by_cases h : v.race_score = 0
  · rw [if_pos h]; norm_num
  · rw [if_neg h]; linarith

/-- The death-band constant lies in [0.042, 0.535]. -/
theorem deathProb_range (n : ℚ) : 0.042 ≤ deathProb n ∧ deathProb n ≤ 0.535 := by
  rw [deathProb]
  split_ifs <;> norm_num

/-- The baseline of `p_good_outcome_ais_no_lvo` is positive (its
discriminant is negative). -/
theorem ais_no_lvo_baseline_pos (n : ℚ) : 0 < ais_no_lvo_baseline n := by
  rw [ais_no_lvo_baseline]
  nlinarith [sq_nonneg (n - 30.75)]

/-- The baseline of `p_good_outcome_ais_no_lvo` is below 1 for NIHSS in
(0, 61.5). -/
theorem ais_no_lvo_baseline_lt_one (n : ℚ) (h0 : 0 < n) (h1 : n < 61.5) :
    ais_no_lvo_baseline n < 1 := by
  rw [ais_no_lvo_baseline]
  nlinarith

/-- For NIHSS in (0, 61.5) and time in [0, 270), the odds-adjusted
probability of `p_good_outcome_ais_no_lvo` lies in [0, 1]. -/
theorem ais_no_lvo_adjusted_range (n t : ℚ) (hn0 : 0 < n) (hn1 : n < 61.5)
    (ht0 : 0 ≤ t) (ht1 : t < 270) :
    0 ≤ ais_no_lvo_adjusted n t ∧ ais_no_lvo_adjusted n t ≤ 1 := by
  have hb0 := ais_no_lvo_baseline_pos n
  have hb1 := ais_no_lvo_baseline_lt_one n hn0 hn1
  rw [ais_no_lvo_adjusted]
  have hodds : 0 < ais_no_lvo_baseline n / (1 - ais_no_lvo_baseline n) :=
    div_pos hb0 (by linarith)
  have hmult : 0 < -0.0031 * t + 2.068 := by linarith
  have hno : 0 < ais_no_lvo_baseline n / (1 - ais_no_lvo_baseline n) *
      (-0.0031 * t + 2.068) := mul_pos hodds hmult
  constructor
  · positivity
  · rw [div_le_one (by linarith)]
    linarith

/-- claim C2 (amended) -- For every validly constructed severity whose
derived NIHSS is at least 1 (all NIHSS-built severities and all integer
RACE scores qualify; some fractional RACE scores do not, see the
counterexample) and every non-negative non-NaN timing input, the outputs
of `p_good_outcome_no_reperfusion`, `p_good_outcome_ais_no_lvo`,
`p_good_outcome_post_evt_success` and `prob_LVO_given_AIS` (point value
and every uncertainty draw) lie in [0, 1]; and every entry of the state
tensor of `break_up_ais_patients` lies in [0, 1] — in particular is
non-negative — provided every input cell p satisfies 0 ≤ p and
p + death-band constant ≤ 1. -/
theorem claim_C2_amended (v : Sev) (hv : v.Valid) (hn : 1 ≤ v.nihss) :
    (0 ≤ p_good_outcome_no_reperfusion v.nihss ∧
      p_good_outcome_no_reperfusion v.nihss ≤ 1) ∧
    (∀ t : ℚ, 0 ≤ t → ∃ q : ℚ,
      p_good_outcome_ais_no_lvo v.nihss (some t) = some q ∧ 0 ≤ q ∧ q ≤ 1) ∧
    (∀ t : ℚ, 0 ≤ t →
      0 ≤ p_good_outcome_post_evt_success (fun q => Real.exp q) v.nihss t ∧
      p_good_outcome_post_evt_success (fun q => Real.exp q) v.nihss t ≤ 1) ∧
    (∀ (n : ℕ) (b : Bool) (u : ℕ → ℝ), (∀ i, 0 ≤ u i ∧ u i < 1) →
      ∀ x ∈ prob_LVO_given_AIS (fun q => Real.exp q) v.race_score n b u,
        0 ≤ x ∧ x ≤ 1) ∧
    (∀ grid : List (List ℚ),
      (∀ row ∈ grid, ∀ p ∈ row, 0 ≤ p ∧ p + deathProb v.nihss ≤ 1) →
      ∀ orow ∈ break_up_ais_patients v.nihss grid, ∀ cell ∈ orow,
        (0 ≤ cell.mrs0 ∧ cell.mrs0 ≤ 1) ∧ (0 ≤ cell.mrs1 ∧ cell.mrs1 ≤ 1) ∧
        (0 ≤ cell.mrs2 ∧ cell.mrs2 ≤ 1) ∧ (0 ≤ cell.mrs3 ∧ cell.mrs3 ≤ 1) ∧
        (0 ≤ cell.mrs4 ∧ cell.mrs4 ≤ 1) ∧ (0 ≤ cell.mrs5 ∧ cell.mrs5 ≤ 1) ∧
        (0 ≤ cell.mrs6 ∧ cell.mrs6 ≤ 1)) := by
  have h21 : v.nihss ≤ 21.12 := nihss_le_of_valid v hv
  refine ⟨?_, fun t ht => ?_, fun t ht => ?_, fun n b u hu x hx => ?_,
    fun grid hgrid orow horow cell hcell => ?_⟩
  · rw [p_good_outcome_no_reperfusion]
    split_ifs with h
    · norm_num
    · push_neg at h
      constructor <;> linarith
  · by_cases hlt : t < time_limit_tpa
    · obtain ⟨ha0, ha1⟩ := ais_no_lvo_adjusted_range v.nihss t (by linarith)
        (by linarith) ht (by rw [time_limit_tpa] at hlt; linarith)
      refine ⟨ais_no_lvo_adjusted v.nihss t, ?_, ha0, ha1⟩
      rw [p_good_outcome_ais_no_lvo, if_pos hlt]
    · refine ⟨ais_no_lvo_baseline v.nihss, ?_, (ais_no_lvo_baseline_pos _).le,
        (ais_no_lvo_baseline_lt_one v.nihss (by linarith) (by linarith)).le⟩
      rw [p_good_outcome_ais_no_lvo, if_neg hlt]
  · rw [p_good_outcome_post_evt_success]
    refine ⟨(Real.exp_pos _).le, Real.exp_le_one_iff.mpr ?_⟩
    have hexp : ((-0.00879544 - 9.01419716e-5 * t) * v.nihss : ℚ) ≤ 0 := by
      nlinarith
    exact_mod_cast hexp
  · obtain ⟨hr0, _hr9⟩ := race_score_range v hv
    cases b with
    | false =>
        rw [prob_LVO_given_AIS, if_neg (by simp)] at hx
        have hxp := List.eq_of_mem_replicate hx
        rw [hxp]
        exact ⟨(lvo_helper_pos _ _ _).le, lvo_helper_le_one _ _ _⟩
    | true =>
        rw [prob_LVO_given_AIS, if_pos rfl] at hx
        obtain ⟨i, _hi, hix⟩ := List.mem_map.mp hx
        obtain ⟨hu0, hu1⟩ := hu i
        have hle := lvo_lower_le_upper v.race_score hr0
        have hlp := lvo_helper_pos (-3.6526) 0.4141 v.race_score
        have hup := lvo_helper_le_one (-2.2067) 0.6925 v.race_score
        constructor
        · rw [← hix]; nlinarith
        · rw [← hix]; nlinarith
  · rw [break_up_ais_patients] at horow
    obtain ⟨row, hrowmem, hroweq⟩ := List.mem_map.mp horow
    rw [← hroweq] at hcell
    obtain ⟨p, hpmem, hpeq⟩ := List.mem_map.mp hcell
    obtain ⟨hp0, hp1⟩ := hgrid row hrowmem p hpmem
    obtain ⟨hd0, hd1⟩ := deathProb_range v.nihss
    rw [← hpeq]
    rw [breakUpCell]
    refine ⟨⟨by nlinarith, by nlinarith⟩, ⟨by nlinarith, by nlinarith⟩,
      ⟨by nlinarith, by nlinarith⟩, ⟨by nlinarith, by nlinarith⟩,
      ⟨by nlinarith, by nlinarith⟩, ⟨by nlinarith, by nlinarith⟩,
      ⟨by nlinarith, by nlinarith⟩⟩

/-- Witness for C2 (amended) at RACE 5 (derived NIHSS 11.56), t = 100. -/
theorem claim_C2_amended_witness :
    (0 ≤ p_good_outcome_no_reperfusion (Sev.mkRACE 5).nihss ∧
      p_good_outcome_no_reperfusion (Sev.mkRACE 5).nihss ≤ 1) ∧
    (∃ q : ℚ, p_good_outcome_ais_no_lvo (Sev.mkRACE 5).nihss (some 100) = some q ∧
      0 ≤ q ∧ q ≤ 1) :=
  ⟨(claim_C2_amended (Sev.mkRACE 5) (by norm_num [Sev.Valid, RACE_accepts])
      (by norm_num [Sev.nihss, Sev.race_score, get_NIHSS])).1,
   (claim_C2_amended (Sev.mkRACE 5) (by norm_num [Sev.Valid, RACE_accepts])
      (by norm_num [Sev.nihss, Sev.race_score, get_NIHSS])).2.1 100 (by norm_num)⟩

/-- Counterexample for C2 as stated: the RACE score 0.1 is accepted by the
constructor, yet `p_good_outcome_no_reperfusion` evaluates to
1.01410664 > 1 there (the derived NIHSS is −0.151); and even for a
probability input p = 1 ∈ [0, 1], `break_up_ais_patients` at the valid
severity RACE 5 produces a cell whose mRS-3 entry is negative. -/
theorem claim_C2_counterexample :
    ((Sev.mkRACE (1/10)).Valid ∧
      1 < p_good_outcome_no_reperfusion (Sev.mkRACE (1/10)).nihss) ∧
    ((Sev.mkRACE 5).Valid ∧ (0:ℚ) ≤ 1 ∧
      break_up_ais_patients (Sev.mkRACE 5).nihss [[1]] =
        [[breakUpCell (Sev.mkRACE 5).nihss 1]] ∧
      (breakUpCell (Sev.mkRACE 5).nihss 1).mrs3 < 0) := by
  refine ⟨⟨by norm_num [Sev.Valid, RACE_accepts], ?_⟩,
    by norm_num [Sev.Valid, RACE_accepts], by norm_num, rfl, ?_⟩
  · have hn : (Sev.mkRACE (1/10)).nihss = -0.151 := by
      rw [Sev.nihss]
      show get_NIHSS (1/10) = -0.151
      rw [get_NIHSS, if_neg (by norm_num : (1/10 : ℚ) ≠ 0)]
      norm_num
    rw [hn, p_good_outcome_no_reperfusion, if_neg (by norm_num)]
    norm_num
  · have hn : (Sev.mkRACE 5).nihss = 11.56 := by
      rw [Sev.nihss]
      show get_NIHSS 5 = 11.56
      rw [get_NIHSS, if_neg (by norm_num : (5 : ℚ) ≠ 0)]
      norm_num
    rw [breakUpCell, hn]
    show (0.35678392 : ℚ) * (1 - 1 - deathProb 11.56) < 0
    rw [deathProb, if_neg (by norm_num), if_pos (by norm_num)]
    norm_num

/-- `stroke_center.CenterType` (an external collaborator of
stroke_model.py): the tag splitting hospitals into primary and
comprehensive centers. -/
inductive CenterType where
  | primary
  | comprehensive
  deriving DecidableEq, Repr

/-- A hospital object as used by `StrokeModel`: identifier, center type
and travel time (`none` embeds NaN). -/
structure Hospital where
  center_id : String
  center_type : CenterType
  time : Option ℚ
  deriving DecidableEq, Repr

/-- A value of the travel-time lookup handed to `set_times`: it either
parses as a float or makes `float(...)` raise `ValueError` (e.g. the
string "N/A"). -/
inductive TimeVal where
  | num (t : ℚ)
  | malformed
  deriving DecidableEq, Repr

/-- `StrokeModel.set_times` (stroke_model.py lines 38-51): map the lookup
onto the hospitals; an absent identifier or a failed conversion sets the
time to NaN. -/
def set_times (tlookup : List (String × TimeVal)) (hs : List Hospital) :
    List Hospital :=
  hs.map (fun center =>
    match tlookup.lookup center.center_id with
    | some (TimeVal.num t) => { center with time := some t }
    | some TimeVal.malformed => { center with time := none }
    | none => { center with time := none })

/-- `StrokeModel.hospitals` (stroke_model.py lines 12-15): all hospitals
with valid (non-NaN) travel times. -/
def hospitals (hs : List Hospital) : List Hospital :=
  hs.filter (fun h => h.time.isSome)

/-- `StrokeModel.primaries` (stroke_model.py lines 17-21). -/
def primaries (hs : List Hospital) : List Hospital :=
  (hospitals hs).filter (fun h => h.center_type = CenterType.primary)

/-- `StrokeModel.comprehensives` (stroke_model.py lines 23-27). -/
def comprehensives (hs : List Hospital) : List Hospital :=
  (hospitals hs).filter (fun h => h.center_type = CenterType.comprehensive)

/-- claim C9 -- `set_times` is total (no exception: the output covers every
hospital); every hospital whose identifier is absent from the lookup or
whose value fails numeric conversion ends with travel time NaN; a hospital
with NaN time is excluded from the `hospitals`, `primaries` and
`comprehensives` views; and the `hospitals` view contains exactly the
hospitals with non-NaN travel times. -/
theorem claim_C9 (tlookup : List (String × TimeVal)) (hs : List Hospital) :
    (set_times tlookup hs).length = hs.length ∧
    (∀ h ∈ set_times tlookup hs,
      (tlookup.lookup h.center_id = none ∨
       tlookup.lookup h.center_id = some TimeVal.malformed) → h.time = none) ∧
    (∀ h ∈ set_times tlookup hs, h.time = none →
      h ∉ hospitals (set_times tlookup hs) ∧
      h ∉ primaries (set_times tlookup hs) ∧
      h ∉ comprehensives (set_times tlookup hs)) ∧
    (∀ h : Hospital, h ∈ hospitals (set_times tlookup hs) ↔
      h ∈ set_times tlookup hs ∧ h.time ≠ none) := by
  refine ⟨List.length_map _ _, fun h hmem hcond => ?_, fun h _hmem ht => ?_,
    fun h => ?_⟩
  · obtain ⟨center, _hc, hfeq⟩ := List.mem_map.mp hmem
    rcases hl : tlookup.lookup center.center_id with _ | tv
    · rw [← hfeq]
      simp only [hl]
    · cases tv with
      | num t =>
          exfalso
          have hid : h.center_id = center.center_id := by
            rw [← hfeq]
            simp only [hl]
          rw [hid, hl] at hcond
          rcases hcond with hc | hc <;> simp at hc
      | malformed =>
          rw [← hfeq]
          simp only [hl]
  · have hnot : h ∉ hospitals (set_times tlookup hs) := by
      intro hmem2
      have := (List.mem_filter.mp hmem2).2
      rw [ht] at this
      simp at this
    refine ⟨hnot, fun hmem2 => ?_, fun hmem2 => ?_⟩
    · exact hnot (List.mem_filter.mp hmem2).1
    · exact hnot (List.mem_filter.mp hmem2).1
  · rw [hospitals, List.mem_filter]
    constructor
    · rintro ⟨h1, h2⟩
      exact ⟨h1, by simpa [Option.isSome_iff_ne_none] using h2⟩
    · rintro ⟨h1, h2⟩
      exact ⟨h1, by simpa [Option.isSome_iff_ne_none] using h2⟩

/-- Witness for C9: a hospital whose lookup value "N/A" fails conversion
gets NaN time and disappears from the `hospitals` view. -/
theorem claim_C9_witness :
    (Hospital.mk "H1" CenterType.primary none).time = none ∧
    Hospital.mk "H1" CenterType.primary none ∉
      hospitals (set_times [("H1", TimeVal.malformed)]
        [Hospital.mk "H1" CenterType.primary (some 10)]) :=
  ⟨rfl,
   ((claim_C9 [("H1", TimeVal.malformed)]
      [Hospital.mk "H1" CenterType.primary (some 10)]).2.2.1
     (Hospital.mk "H1" CenterType.primary none)
     (by simp [set_times, List.lookup]) rfl).1⟩

/-- The normalization of `counts_by_center` into a frequency table:
`pd.DataFrame.from_dict(cbc, orient='index', columns=['count']) / n_sim`
(stroke_model.py lines 70-71). -/
def counts_to_freq (counts : List (String × ℚ)) (n_sim : ℚ) :
    List (String × ℚ) :=
  counts.map (fun p => (p.1, p.2 / n_sim))

/-- The elementwise `(df_cbc - old_df_cbc).abs()` of stroke_model.py
line 75, restricted to indices present in both tables: pandas aligns the
two tables on the union of their indices, an index present in only one
yields NaN there, and the subsequent `.max()` skips NaN. -/
def aligned_abs_diffs (df old_df : List (String × ℚ)) : List ℚ :=
  df.filterMap (fun p => (old_df.lookup p.1).map (fun v => |p.2 - v|))

/-- `StrokeModel._check_convergence` (stroke_model.py lines 68-76):
normalize the counts by n_sim; on the first iteration (no previous table)
report no convergence; otherwise compare the NaN-skipping maximum absolute
difference against the 1% threshold (the `max()` of an all-NaN column is
NaN, and `NaN <= thresh` is `False`). -/
def check_convergence (counts : List (String × ℚ)) (n_sim : ℚ)
    (old_df : Option (List (String × ℚ))) : Bool × List (String × ℚ) :=
  let df := counts_to_freq counts n_sim
  match old_df with
  | none => (false, df)
  | some o =>
      match (aligned_abs_diffs df o).max? with
      | none => (false, df)
      | some m => (decide (m ≤ 0.01), df)

/-- claim C3 -- `_check_convergence` reports no convergence on the first
iteration (no previous frequency table); otherwise it reports convergence
iff the maximum absolute difference between the current and previous
frequency tables, over hospitals present in both, is at most 0.01; two
successive tables differing by exactly 0.005 converge and tables differing
by 0.02 do not. -/
theorem claim_C3 :
    (∀ (counts : List (String × ℚ)) (n_sim : ℚ),
      (check_convergence counts n_sim none).1 = false) ∧
    (∀ (counts : List (String × ℚ)) (n_sim : ℚ)
      (old : List (String × ℚ)) (m : ℚ),
      m ∈ aligned_abs_diffs (counts_to_freq counts n_sim) old →
      (∀ x ∈ aligned_abs_diffs (counts_to_freq counts n_sim) old, x ≤ m) →
      ((check_convergence counts n_sim (some old)).1 = true ↔ m ≤ 0.01)) ∧
    (check_convergence [("A", 101)] 200 (some [("A", 1/2)])).1 = true ∧
    (check_convergence [("A", 104)] 200 (some [("A", 1/2)])).1 = false := by
  refine ⟨fun counts n_sim => rfl, fun counts n_sim old m hm hmax => ?_, ?_, ?_⟩
  · set diffs := aligned_abs_diffs (counts_to_freq counts n_sim) old with hdiffs
    have hsome : diffs.max?.isSome := List.isSome_max?_of_mem hm
    obtain ⟨m2, hm2⟩ := Option.isSome_iff_exists.mp hsome
    have hm2mem : m2 ∈ diffs := List.max?_mem (fun a b => max_choice a b) hm2
    have hle : ∀ x : ℚ, m2 ≤ x ↔ ∀ b ∈ diffs, b ≤ x :=
      fun x => List.max?_le_iff (fun a b c => max_le_iff) hm2
    have h1 : m2 ≤ m := (hle m).mpr hmax
    have h2 : m ≤ m2 := (hle m2).mp (le_refl m2) m hm
    have heq : m2 = m := le_antisymm h1 h2
    rw [check_convergence]
    simp only [← hdiffs, hm2, heq]
    exact decide_eq_true_iff
  · have hd : aligned_abs_diffs (counts_to_freq [("A", 101)] 200) [("A", 1/2)] =
        [|101 / 200 - 1/2|] := by
      simp [aligned_abs_diffs, counts_to_freq, List.lookup]
    rw [check_convergence]
    simp only [hd, List.max?_cons, List.max?_nil, Option.elim]
    rw [decide_eq_true_iff]
    rw [abs_of_nonneg (by norm_num)]
    norm_num
  · have hd : aligned_abs_diffs (counts_to_freq [("A", 104)] 200) [("A", 1/2)] =
        [|104 / 200 - 1/2|] := by
      simp [aligned_abs_diffs, counts_to_freq, List.lookup]
    rw [check_convergence]
    simp only [hd, List.max?_cons, List.max?_nil, Option.elim]
    rw [decide_eq_false_iff_not, not_le, abs_of_nonneg (by norm_num)]
    norm_num

/-- Witness for C3: the table pair at distance exactly 1/200 satisfies the
iff with m = 1/200. -/
theorem claim_C3_witness :
    (check_convergence [("A", 101)] 200 (some [("A", 1/2)])).1 = true ↔
      (1/200 : ℚ) ≤ 0.01 :=
  claim_C3.2.1 [("A", 101)] 200 [("A", 1/2)] (1/200)
    (by simp [aligned_abs_diffs, counts_to_freq, List.lookup]
        rw [abs_of_nonneg (by norm_num)]
        norm_num)
    (by intro x hx
        simp [aligned_abs_diffs, counts_to_freq, List.lookup] at hx
        rw [hx, abs_of_nonneg (by norm_num)]
        norm_num)

/-- The outcome of one `StrokeModel.run_new` call: the n_sim used by each
executed iteration (in order), the `markov_results` counts of the last
executed iteration, and whether the loop exited through convergence. -/
structure RunOutcome where
  nsims : List ℕ
  last_counts : List (String × ℚ)
  converged : Bool
  deriving DecidableEq, Repr

/-- The loop of `StrokeModel.run_new` (stroke_model.py lines 87-103), the
per-iteration pipeline abstracted by the oracle `sim` (iteration, n_sim) ↦
counts_by_center.  The first argument is the remaining iteration budget
`NRUN_MAX - c`; per source, n_sim is increased by `1000*(c+1)` after the
convergence check, and the loop breaks when convergence was reported. -/
def run_new_aux (sim : ℕ → ℕ → List (String × ℚ)) :
    ℕ → ℕ → ℕ → Option (List (String × ℚ)) → List ℕ → List (String × ℚ) →
    RunOutcome
  | 0, _c, _n_sim, _old_df, ns, last => ⟨ns, last, false⟩
  | fuel+1, c, n_sim, old_df, ns, last =>
      let markov_counts := sim c n_sim
      let cd := check_convergence markov_counts (n_sim : ℚ) old_df
      if cd.1 then ⟨ns ++ [n_sim], markov_counts, true⟩
      else run_new_aux sim fuel (c+1) (n_sim + 1000*(c+1)) (some cd.2)
        (ns ++ [n_sim]) markov_counts

/-- `StrokeModel.run_new` (stroke_model.py lines 78-104): n_sim starts at
5000, NRUN_MAX = 20, no previous frequency table. -/
def run_new (sim : ℕ → ℕ → List (String × ℚ)) : RunOutcome :=
  run_new_aux sim 20 0 5000 none [] []

/-- The n_sim value iteration k runs with: 5000 plus the accumulated
increments 1000·1 + … + 1000·k = 500·k·(k+1). -/
def nsim_at (k : ℕ) : ℕ :=
  5000 + 500 * k * (k + 1)

theorem nsim_at_step (c : ℕ) : nsim_at c + 1000 * (c + 1) = nsim_at (c + 1) := by
  rw [nsim_at, nsim_at]
  ring

/-- Schedule and termination behaviour of the `run_new` loop, by induction
on the remaining budget. -/
theorem run_new_aux_spec (sim : ℕ → ℕ → List (String × ℚ)) :
    ∀ (fuel c : ℕ) (old : Option (List (String × ℚ))) (ns : List ℕ)
      (last : List (String × ℚ)), ∃ t : ℕ, t ≤ fuel ∧
      (run_new_aux sim fuel c (nsim_at c) old ns last).nsims =
        ns ++ (List.range t).map (fun i => nsim_at (c + i)) ∧
      ((run_new_aux sim fuel c (nsim_at c) old ns last).converged = false →
        t = fuel ∧
        (1 ≤ fuel →
          (run_new_aux sim fuel c (nsim_at c) old ns last).last_counts =
            sim (c + fuel - 1) (nsim_at (c + fuel - 1)))) := by
  intro fuel
  induction fuel with
  | zero =>
      intro c old ns last
      exact ⟨0, le_refl 0, by simp [run_new_aux], fun _ => ⟨rfl, by omega⟩⟩
  | succ fuel ih =>
      intro c old ns last
      rw [run_new_aux]
      by_cases hcv : (check_convergence (sim c (nsim_at c)) (nsim_at c : ℚ) old).1 = true
      · refine ⟨1, by omega, ?_, ?_⟩
        · simp only [hcv, if_true]
          have h1 : List.range 1 = [0] := rfl
          rw [h1, List.map_cons, List.map_nil, Nat.add_zero]
        · simp [hcv]
      · have hcv' : (check_convergence (sim c (nsim_at c)) (nsim_at c : ℚ) old).1 = false :=
          Bool.not_eq_true _ ▸ (by simpa using hcv)
        simp only [hcv', Bool.false_eq_true, if_false]
        have hstep := nsim_at_step c
        rw [hstep]
        obtain ⟨t, ht, hns, hconv⟩ := ih (c + 1)
          (some (check_convergence (sim c (nsim_at c)) (nsim_at c : ℚ) old).2)
          (ns ++ [nsim_at c]) (sim c (nsim_at c))
        refine ⟨t + 1, by omega, ?_, ?_⟩
        · have hmap : List.map (fun i => nsim_at (c + 1 + i)) (List.range t) =
              List.map (fun i => nsim_at (c + i)) (List.map Nat.succ (List.range t)) := by
            rw [List.map_map]
            apply List.map_congr_left
            intro a _ha
            simp only [Function.comp_apply]
            congr 1
            omega
          rw [hns, List.append_assoc, List.singleton_append, hmap,
            List.range_succ_eq_map, List.map_cons, Nat.add_zero]
        · intro hfalse
          obtain ⟨ht', hlast⟩ := hconv hfalse
          refine ⟨by omega, fun _ => ?_⟩
          rcases Nat.eq_zero_or_pos fuel with h0 | hpos
          · rw [h0]
            simp only [run_new_aux]
            have hc : c + (0 + 1) - 1 = c := by omega
            rw [hc]
          · rw [hlast hpos]
            have hidx : c + 1 + fuel - 1 = c + (fuel + 1) - 1 := by omega
            rw [hidx]

/-- claim C4 -- `run_new` initializes n_sim to 5000 and increments it by
1000·(c+1) after iteration c, so iteration k runs with
n_sim = 5000 + 500·k·(k+1); the loop executes at most 20 iterations; and
if convergence is never reported it stops after the 20th iteration and
returns the results of that last iteration without raising. -/
theorem claim_C4 (sim : ℕ → ℕ → List (String × ℚ)) :
    (run_new sim).nsims.length ≤ 20 ∧
    (∀ (k : ℕ) (hk : k < (run_new sim).nsims.length),
      (run_new sim).nsims.get ⟨k, hk⟩ = 5000 + 500 * k * (k + 1)) ∧
    ((run_new sim).converged = false →
      (run_new sim).nsims.length = 20 ∧
      (run_new sim).last_counts = sim 19 (5000 + 500 * 19 * 20)) := by
  have h5000 : (5000 : ℕ) = nsim_at 0 := by rw [nsim_at]
  obtain ⟨t, ht, hns, hconv⟩ := run_new_aux_spec sim 20 0 none [] []
  have hrn : run_new sim = run_new_aux sim 20 0 (nsim_at 0) none [] [] := by
    rw [run_new, h5000]
  rw [hrn]
  refine ⟨?_, fun k hk => ?_, fun hfalse => ?_⟩
  · rw [hns]
    simp only [List.nil_append, List.length_map, List.length_range]
    omega
  · rw [List.get_eq_getElem]
    simp only [hns, List.nil_append, List.getElem_map, List.getElem_range,
      Nat.zero_add]
    rw [nsim_at]
  · obtain ⟨ht20, hlast⟩ := hconv hfalse
    subst ht20
    constructor
    · rw [hns]
      simp
    · rw [hlast (by omega)]
      norm_num [nsim_at]

/-- An oracle whose per-hospital counts use a different hospital key on
every other iteration, so no two successive frequency tables share a
hospital and convergence is never reported. -/
def simAlternating (c : ℕ) (_n_sim : ℕ) : List (String × ℚ) :=
  [(if c % 2 = 0 then "A" else "B", (1:ℚ))]

/-- Witness for C4: with the alternating oracle the loop never converges,
runs exactly 20 iterations and returns normally. -/
theorem claim_C4_witness :
    (run_new simAlternating).converged = false ∧
    (run_new simAlternating).nsims.length = 20 :=
  ⟨rfl, ((claim_C4 simAlternating).2.2 rfl).1⟩

end Stroke
